import Mathlib

/-!
Verification of the download→upload orchestration core of the
video-downloader-uploader repository.

The development shallowly embeds the Python modules `src/downloader.py`,
`src/uploader.py` and `src/gui.py`.  Python dictionaries are modelled as
association lists over a small value type, Python exceptions as the
`Except` monad (an `Except.error` is a raised exception reaching the
caller), and the external collaborators (yt-dlp, the Google Drive API,
yadisk, the local file system) as explicit oracle parameters and
in-memory backend states threaded through the functions that the source
code calls on them.
-/

namespace VDU

/-- Status constant `STATUS_SUCCESS = "успех"` from `src/uploader.py`. -/
def STATUS_SUCCESS : String := "успех"

/-- Status constant `STATUS_ERROR = "ошибка"` from `src/uploader.py`. -/
def STATUS_ERROR : String := "ошибка"

/-- A Python value as far as the claims need: `None` or a string.
(All payloads the code stores in its result dicts are strings, paths or
links; paths are modelled by their string form.) -/
inductive PyVal where
  | vnone : PyVal
  | str : String → PyVal
deriving DecidableEq

/-- A Python dict, modelled as an association list; lookups take the
leftmost binding, and updates cons a new binding in front, which is
observationally the same as Python dict update for every lookup. -/
def PyDict := List (String × PyVal)

instance : DecidableEq PyDict := by unfold PyDict; infer_instance

/-- Python `d[k]`-style lookup returning the first binding of `k`. -/
def dget (d : PyDict) (k : String) : Option PyVal :=
  match d with
  | [] => Option.none
  | (k', v) :: rest => if k' = k then Option.some v else dget rest k

/-- Python `{**d, k: v}`: update `d` so that `k` now maps to `v`. -/
def dset (d : PyDict) (k : String) (v : PyVal) : PyDict :=
  (k, v) :: d

/-- Python `task.get(k)` for an optional string field. -/
def pyOpt (o : Option String) : PyVal :=
  match o with
  | Option.some s => PyVal.str s
  | Option.none => PyVal.vnone

/-- How Python renders an optional string inside an f-string
(`None` prints as `"None"`). -/
def pyShow (o : Option String) : String :=
  match o with
  | Option.some s => s
  | Option.none => "None"

/-- Python `str(KeyError(k))` is the quoted key. -/
def pyKeyError (k : String) : String := "\x27" ++ k ++ "\x27"

/-!
Section: The download step (`src/downloader.py`, `download_video`)

`download_video(url, slug, temp_dir)` invokes `yt_dlp.YoutubeDL(...).download`,
re-raises every failure as `DownloadError`, and afterwards looks the
downloaded file up on disk.  The call into yt-dlp is modelled by a
`FetchOutcome` oracle (its integer return code, or an exception), and the
two `find_downloaded_file` probes for the `mp4` / `webm` file by two
`Option String` oracles standing for what is found in the temp directory.
An `Except.error` result is a `DownloadError` escaping to the caller.
-/

/-- Outcome of the `ydl.download([url])` call. -/
inductive FetchOutcome where
  | ret : Int → FetchOutcome
  | exn : String → FetchOutcome
deriving DecidableEq

/-- Function `download_video` from `src/downloader.py` (lines 54–113).  Returns the
path to the downloaded file, or raises (`Except.error`) a `DownloadError`. -/
def download_video (fetch : FetchOutcome) (findMp4 findWebm : Option String)
    (url slug temp_dir : String) : Except String String :=
  -- `try: retcode = ydl.download([url]); if retcode != 0: raise ...`
  -- `except Exception as e: raise DownloadError(f"Не удалось скачать видео: {url}")`
  let tryBlock : Except String Unit :=
    match fetch with
    | FetchOutcome.ret code =>
        if code ≠ 0 then
          Except.error ("yt-dlp вернул код ошибки " ++ toString code ++ " для URL " ++ url)
        else Except.ok ()
    | FetchOutcome.exn e => Except.error e
  match tryBlock with
  | Except.error _ => Except.error ("Не удалось скачать видео: " ++ url)
  | Except.ok _ =>
      match findMp4 with
      | Option.some f => Except.ok f
      | Option.none =>
          match findWebm with
          | Option.some f => Except.ok f
          | Option.none =>
              Except.error ("Скачанный файл для slug \x27" ++ slug ++ "\x27 не найден в " ++ temp_dir)

/-!
Section: Upload strategies (`src/uploader.py`)

The three registered strategies are embedded against in-memory backend
states.  The `upload` of a strategy returns `Except String PyDict`: `Except.ok`
is the result dict the Python coroutine returns, `Except.error msg` is an
exception with message `msg` escaping the strategy (`UploadError`,
`YaDiskError` re-raised as `UploadError`, …).
-/

/-- Python `path.strip("/")`: remove all leading and trailing slashes. -/
def strip_slashes (s : String) : String :=
  String.mk (((s.toList.dropWhile (fun c => c = '/')).reverse.dropWhile
      (fun c => c = '/')).reverse)

/-- Split a character list on a separator, Python `str.split` style
(`"" ↦ [""]`, adjacent separators give empty segments). -/
def splitChars (sep : Char) : List Char → List (List Char)
  | [] => [[]]
  | c :: rest =>
      let r := splitChars sep rest
      if c = sep then [] :: r
      else
        match r with
        | [] => [[c]]
        | s :: ss => (c :: s) :: ss

/-- Python `s.split("/")`. -/
def split_slash (s : String) : List String :=
  (splitChars '/' s.toList).map String.mk

/-- Python `path.strip("/").split("/")`, the raw segment list walked by
`_create_folders_chain` (empty segments are skipped inside the loop,
exactly as the `if folder_name:` guard does). -/
def path_segments (p : String) : List String :=
  split_slash (strip_slashes p)

/-!
Section: Google Drive (`GoogleDriveUploaderStrategy`)

The Drive service is an in-memory folder table.  Folder ids are natural
numbers: the API hands out opaque fresh ids, and every folder is created
after its parent, which the model captures by drawing ids from an
increasing counter `nextId`; the Drive root is id `0`.  `files().list`
with the query used at line 111 is the filter over the table;
`files().create` for a folder appends a row and bumps the counter.
HTTP-level failures of these calls (which the source wraps into raised
`UploadError`s) are not modelled; credential absence is.
-/

/-- One folder row of the modelled Drive: id, parent id, name. -/
structure DriveFolder where
  id : Nat
  parent : Nat
  name : String
deriving DecidableEq

/-- The modelled Drive backend state. -/
structure DriveState where
  folders : List DriveFolder
  files : List (Nat × String)
  nextId : Nat
deriving DecidableEq

/-- The Drive root folder id (`"root"` in the source). -/
def driveRootId : Nat := 0

/-- The `files().list(q=...)` query of `_find_or_create_folder`: children
of `parentId` named `folderName` (the source also filters on the folder
mime type and `trashed=false`; the table of the model only holds live folders). -/
def drive_list_query (s : DriveState) (parentId : Nat) (folderName : String) :
    List DriveFolder :=
  s.folders.filter (fun f => f.parent = parentId ∧ f.name = folderName)

/-- Method `_find_or_create_folder` (lines 109–124): take the first query match,
otherwise create the folder under `parentId` and return its fresh id. -/
def find_or_create_folder (s : DriveState) (parentId : Nat) (folderName : String) :
    Nat × DriveState :=
  match drive_list_query s parentId folderName with
  | f :: _ => (f.id, s)
  | [] =>
      (s.nextId,
        { s with folders := ⟨s.nextId, parentId, folderName⟩ :: s.folders,
                 nextId := s.nextId + 1 })

/-- The loop body of `_create_folders_chain` over the split segments. -/
def create_folders_chain_go (s : DriveState) (parentId : Nat) :
    List String → Nat × DriveState
  | [] => (parentId, s)
  | n :: rest =>
      if n = "" then create_folders_chain_go s parentId rest
      else
        let fs := find_or_create_folder s parentId n
        create_folders_chain_go fs.2 fs.1 rest

/-- Method `_create_folders_chain` (lines 126–132): walk
`path.strip("/").split("/")` segment by segment from `rootId`, returning
the id of the last folder. -/
def create_folders_chain (s : DriveState) (rootId : Nat) (path : String) :
    Nat × DriveState :=
  create_folders_chain_go s rootId (path_segments path)

/-- Method `_upload_sync` (lines 134–148): check credentials, build the folder
chain, create the file under the resulting folder.  `credsOk` stands for
`get_google_drive_credentials()` succeeding; the API id of the uploaded file
and web link are opaque payloads. -/
def upload_sync (credsOk : Bool) (s : DriveState)
    (cloud_folder_path filename : String) : Except String (PyDict × DriveState) :=
  if credsOk = false then
    Except.error "Не удалось получить учетные данные Google Drive."
  else
    let fs := create_folders_chain s driveRootId cloud_folder_path
    let s2 : DriveState := { fs.2 with files := (fs.1, filename) :: fs.2.files }
    Except.ok
      ([("status", PyVal.str STATUS_SUCCESS),
        ("id", PyVal.str (toString fs.2.nextId)),
        ("url", PyVal.str "webViewLink")], s2)

/-!
Section: Yandex.Disk (`YandexDiskUploaderStrategy.upload`, lines 73–90)

The disk is a set of existing directory paths plus uploaded files.  The
source makes exactly one existence check and (at most) one `mkdir`, both
on the *full* stripped destination path.  The yadisk `mkdir` call creates
a single directory and raises (a `YaDiskError`, which the `except` clause
re-raises as `UploadError`) when the parent directory of that path does
not exist — it never creates missing ancestors — and the model mirrors
that.  `yaOk = false` stands for a `YaDiskError` from any of the other
API calls, re-raised the same way.
-/

/-- The modelled Yandex.Disk state: existing directories and uploaded
files `(remote path, local source)`. -/
structure YaState where
  dirs : List String
  files : List (String × String)
deriving DecidableEq

/-- The parent directory of an absolute disk path: `"/"` for a
single-segment path, otherwise the path without its last segment. -/
def ya_parent_dir (p : String) : String :=
  let segs := split_slash (strip_slashes p)
  if segs.length ≤ 1 then "/" else "/" ++ String.intercalate "/" segs.dropLast

/-- Whether the parent directory required by a `mkdir` of `p` exists on
the disk (the root always exists). -/
def ya_parent_exists (st : YaState) (p : String) : Prop :=
  ya_parent_dir p = "/" ∨ ya_parent_dir p ∈ st.dirs

instance (st : YaState) (p : String) : Decidable (ya_parent_exists st p) := by
  unfold ya_parent_exists
  infer_instance

/-- Method `YandexDiskUploaderStrategy.upload`.  The single
`disk.mkdir(dirPath)` succeeds only when the parent of `dirPath` exists;
otherwise yadisk raises and the strategy re-raises `UploadError`. -/
def yandex_upload (token : Option String) (tokenValid yaOk : Bool) (st : YaState)
    (file_path cloud_folder_path filename : String) :
    Except String (PyDict × YaState) :=
  match token with
  | Option.none => Except.error "Токен Яндекс.Диска не найден."
  | Option.some _ =>
      let remote := "/" ++ strip_slashes cloud_folder_path ++ "/" ++ filename
      if yaOk = false then
        Except.error "Ошибка API Яндекс.Диска: api error"
      else if tokenValid = false then
        Except.error "Токен Яндекс.Диска невалиден."
      else
        let dirPath := "/" ++ strip_slashes cloud_folder_path
        do
          let st1 : YaState ←
            if cloud_folder_path ≠ "" ∧ dirPath ∉ st.dirs then
              if ya_parent_exists st dirPath then
                Except.ok { st with dirs := dirPath :: st.dirs }
              else
                Except.error "Ошибка API Яндекс.Диска: родительская папка не найдена"
            else Except.ok st
          let st2 : YaState := { st1 with files := (remote, file_path) :: st1.files }
          Except.ok
            ([("status", PyVal.str STATUS_SUCCESS),
              ("url", PyVal.str ("download-link:" ++ remote))], st2)

/-!
Section: Local save (`LocalSaveStrategy.upload`, lines 167–175)

The file system is a set of directories and files.
`destination_path.mkdir(parents=True, exist_ok=True)` creates every
missing ancestor of the destination directory, modelled by adding all
joined prefixes of the path; `shutil.copy2` adds the destination file.
`osOk = false` stands for an `OSError`, re-raised as `UploadError`.
-/

/-- The modelled local file system. -/
structure FS where
  dirs : List String
  files : List String
deriving DecidableEq

/-- All cumulative joined prefixes of a segment list:
`["a","b","c"] ↦ ["a", "a/b", "a/b/c"]`. -/
def joined_prefixes : List String → List String
  | [] => []
  | s :: rest => s :: (joined_prefixes rest).map (fun t => s ++ "/" ++ t)

/-- The directories `Path(p).mkdir(parents=True, exist_ok=True)` ensures. -/
def mkdir_parents (p : String) : List String :=
  joined_prefixes (split_slash p)

/-- Method `LocalSaveStrategy.upload`. -/
def local_upload (osOk : Bool) (fs : FS)
    (_file_path cloud_folder_path filename : String) : Except String (PyDict × FS) :=
  let destination_file := cloud_folder_path ++ "/" ++ filename
  if osOk = false then
    Except.error "Ошибка при локальном копировании файла: os error"
  else
    let fs1 : FS :=
      { dirs := mkdir_parents cloud_folder_path ++ fs.dirs,
        files := destination_file :: fs.files }
    Except.ok ([("status", PyVal.str STATUS_SUCCESS),
                ("path", PyVal.str destination_file)], fs1)

/-!
Section: The upload dispatcher (`upload_single_file`, lines 198–231)
-/

/-- The three registered strategies. -/
inductive StrategyKind where
  | googleDrive
  | yandexDisk
  | localSave
deriving DecidableEq

/-- The `UPLOADER_STRATEGIES` registry (lines 191–195). -/
def UPLOADER_STRATEGIES : List (String × StrategyKind) :=
  [("Google Drive", StrategyKind.googleDrive),
   ("Yandex.Disk", StrategyKind.yandexDisk),
   ("Сохранить локально", StrategyKind.localSave)]

/-- Python `UPLOADER_STRATEGIES.get(storage_name)` where `storage_name` is
`task.get("cloud_storage")`. -/
def lookup_strategy (name : Option String) : Option StrategyKind :=
  name.bind (fun n => UPLOADER_STRATEGIES.lookup n)

/-- All external-world oracles and backend states the strategies touch. -/
structure Env where
  yaToken : Option String
  yaTokenValid : Bool
  yaOk : Bool
  ya : YaState
  gCreds : Bool
  drive : DriveState
  osOk : Bool
  fs : FS

/-- An upload task dict; every key the dispatcher reads may be absent. -/
structure Task where
  cloud_storage : Option String
  file_path : Option String
  cloud_folder_path : Option String
  filename : Option String

/-- Call `strategy.upload(...)` for the selected strategy, returning only the
result dict (the mutated backend state is internal to the claims about
the dispatcher). -/
def strategy_upload (env : Env) (kind : StrategyKind)
    (fp folder fn : String) : Except String PyDict :=
  match kind with
  | StrategyKind.googleDrive => (upload_sync env.gCreds env.drive folder fn).map Prod.fst
  | StrategyKind.yandexDisk =>
      (yandex_upload env.yaToken env.yaTokenValid env.yaOk env.ya fp folder fn).map Prod.fst
  | StrategyKind.localSave => (local_upload env.osOk env.fs fp folder fn).map Prod.fst

/-- Python `task[k]` subscript: raises `KeyError` when the key is absent. -/
def pySub (o : Option String) (k : String) : Except String String :=
  match o with
  | Option.some v => Except.ok v
  | Option.none => Except.error (pyKeyError k)

/-- The body of the `try:` block of `upload_single_file` (lines 221–228):
subscript the task dict, run the strategy, and return
`{**result, "filename": task["filename"]}`.  Any `Except.error` here is
an exception the `except Exception` clause will catch. -/
def upload_try (env : Env) (kind : StrategyKind) (task : Task) :
    Except String PyDict := do
  let fp ← pySub task.file_path "file_path"
  let folder ← pySub task.cloud_folder_path "cloud_folder_path"
  let fn ← pySub task.filename "filename"
  let result ← strategy_upload env kind fp folder fn
  pure (dset result "filename" (PyVal.str fn))

/-- Function `upload_single_file` (lines 198–231): look the strategy up by name,
return an immediate error dict when there is none, and normalize every
exception from the `try:` body into an error dict.  The function is
total: no exception escapes it. -/
def upload_single_file (env : Env) (task : Task) : PyDict :=
  match lookup_strategy task.cloud_storage with
  | Option.none =>
      [("status", PyVal.str STATUS_ERROR),
       ("filename", pyOpt task.filename),
       ("error", PyVal.str ("Не найдена стратегия для хранилища \x27" ++
          pyShow task.cloud_storage ++ "\x27."))]
  | Option.some kind =>
      match upload_try env kind task with
      | Except.ok result => result
      | Except.error e =>
          [("status", PyVal.str STATUS_ERROR),
           ("filename", pyOpt task.filename),
           ("error", PyVal.str e)]

/-!
Section: The pipeline orchestrator (`src/gui.py`, `DownloadUploadWorker`)

The observable behaviour of the worker is the sequence of Qt signal emissions.
`downloader_task` and `uploader_task` are cooperative tasks that interact
only through the FIFO handoff queue with a `None` sentinel; the model runs
the downloader to completion and then drains the queue with the uploader,
a schedule under which the queue contents, both result lists and each
own event subsequence of each activity are exactly those of every admissible
interleaving.  `download_video` as called here (the five-argument,
result-dict returning download step of the collaborator contract) and
`upload_single_file` are abstracted as function parameters `dl` and `up`,
matching how the pipeline tests mock them.  Cancellation is observed at
the poll points of the monitor loop of `main_pipeline`; the parameter
`cancelObserved` states whether a poll saw the flag set before both
activities completed (the scenario of the cancellation claim sets the
flag before any item completes, so the cancelled trace holds no item
events).
-/

/-- A download-step result dict:
`{status, url, path, error}` (the download collaborator contract). -/
structure DLRes where
  status : String
  url : String
  path : String
  error : String
deriving DecidableEq

/-- An upload result dict as the uploader activity reads it:
`upload_result["status"]` and `upload_result["error"]`. -/
structure UpRes where
  status : String
  error : String
deriving DecidableEq

/-- The upload task dict built at `gui.py` lines 212–217. -/
structure PipeUpTask where
  file_path : String
  cloud_storage : String
  cloud_folder_path : String
  filename : String
deriving DecidableEq

/-- One emission of the worker signals. -/
inductive Event where
  | progress : Nat → String → Event
  | error : String → Event
  | finished : List DLRes → List UpRes → Bool → Event
deriving DecidableEq

/-- Constant `LOCAL_SAVE_OPTION = "Сохранить локально"` from `src/gui.py`. -/
def LOCAL_SAVE_OPTION : String := "Сохранить локально"

/-- Python `Path(p).name`: the final path component. -/
def pathName (p : String) : String :=
  (split_slash p).getLastD ""

/-- The downloader progress value `int(5 + (i / (total * 2)) * 95)`
(line 185).  Python computes the inner term in float arithmetic; for
`0 ≤ i ≤ 2·total` every operation is exact enough that the truncation
equals the rational floor, which for nonnegative integers is natural
division. -/
def dl_progress (total i : Nat) : Nat := 5 + 95 * i / (2 * total)

/-- The uploader progress value
`int(5 + ((total + uploaded_count) / (total * 2)) * 95)` (line 209). -/
def up_progress (total u : Nat) : Nat := 5 + 95 * (total + u) / (2 * total)

/-- Method `downloader_task` (lines 180–195), unrolled over the URL list with the
running index `i`.  Returns the emitted events, the per-URL result list,
and the successful results pushed onto the handoff queue (the `None`
sentinel pushed at line 194 is implicit in the end of the queue list). -/
def downloader_go (dl : String → DLRes) (total : Nat) :
    List String → Nat → List Event × List DLRes × List DLRes
  | [], _ => ([], [], [])
  | url :: rest, i =>
      let r := dl url
      let tail := downloader_go dl total rest (i + 1)
      let pev := Event.progress (dl_progress total i)
        ("Скачивание " ++ toString (i + 1) ++ "/" ++ toString total ++ ": " ++ url)
      if r.status = STATUS_SUCCESS then
        (pev :: tail.1, r :: tail.2.1, r :: tail.2.2)
      else
        (pev :: Event.error ("Ошибка скачивания " ++ url ++ ": " ++ r.error) :: tail.1,
         r :: tail.2.1, tail.2.2)

/-- Method `downloader_task` on the full URL list (`total = len(self.urls)`, `i = 0`). -/
def downloader_task (dl : String → DLRes) (urls : List String) :
    List Event × List DLRes × List DLRes :=
  downloader_go dl urls.length urls 0

/-- Method `uploader_task` (lines 197–223), draining the handoff queue until the
sentinel; `ucount` is `uploaded_count`.  Returns the emitted events and
the upload result list. -/
def uploader_go (up : PipeUpTask → UpRes) (cloud folder : String) (total : Nat) :
    List DLRes → Nat → List Event × List UpRes
  | [], _ => ([], [])
  | r :: rest, ucount =>
      let u := ucount + 1
      let name := pathName r.path
      let ur := up ⟨r.path, cloud, folder, name⟩
      let tail := uploader_go up cloud folder total rest u
      let pev := Event.progress (up_progress total u)
        ("Загрузка " ++ toString u ++ "/" ++ toString total ++ ": " ++ name)
      if ur.status = STATUS_ERROR then
        (pev :: Event.error ("Ошибка загрузки: " ++ ur.error) :: tail.1, ur :: tail.2)
      else
        (pev :: tail.1, ur :: tail.2)

/-- Method `main_pipeline` (lines 150–178): emit the working-directory progress,
run the two activities (the uploader only for a non-local destination),
and either raise `CancelledError` (second component `true`) when a poll
observed the cancellation flag, or emit `finished(downloads, uploads,
False)`. -/
def main_pipeline (dl : String → DLRes) (up : PipeUpTask → UpRes)
    (urls : List String) (cloud folder : String) (cancelObserved : Bool) :
    List Event × Bool :=
  let startEv := Event.progress 5 ("Рабочая папка: " ++ folder)
  if cancelObserved then
    ([startEv], true)
  else
    let d := downloader_task dl urls
    let uEvsRes :=
      if cloud = LOCAL_SAVE_OPTION then (([] : List Event), ([] : List UpRes))
      else uploader_go up cloud folder urls.length d.2.2 0
    (startEv :: (d.1 ++ uEvsRes.1 ++ [Event.finished d.2.1 uEvsRes.2 false]), false)

/-- Method `run` (lines 138–148): run `main_pipeline`; a `CancelledError` is
caught and turned into `finished([], [], True)`, discarding partial
results. -/
def worker_run (dl : String → DLRes) (up : PipeUpTask → UpRes)
    (urls : List String) (cloud folder : String) (cancelObserved : Bool) :
    List Event :=
  let p := main_pipeline dl up urls cloud folder cancelObserved
  if p.2 then p.1 ++ [Event.finished [] [] true] else p.1

/-- The values of the progress events of an event list, in emission order. -/
def progressValues (evs : List Event) : List Nat :=
  evs.filterMap (fun e =>
    match e with
    | Event.progress v _ => Option.some v
    | _ => Option.none)

/-- Whether an event is a progress emission of value 100. -/
def evIs100 : Event → Bool
  | Event.progress 100 _ => true
  | _ => false

/-- Whether an event is the terminal `finished` emission. -/
def evIsFinished : Event → Bool
  | Event.finished _ _ _ => true
  | _ => false

/-- Counts the `finished` emissions of a trace. -/
def finishedCount (evs : List Event) : Nat :=
  evs.countP (fun e => evIsFinished e)

/-- The literal reading of the last clause of the progress claim: a progress
value of 100 is emitted only on final completion, i.e. everything emitted
after a progress-100 event is the terminal `finished` emission. -/
def hundred_only_at_completion (tr : List Event) : Prop :=
  ∀ i j : Fin tr.length, i.val < j.val →
    evIs100 (tr.get i) = true → evIsFinished (tr.get j) = true

/-- Well-formedness of a modelled Drive state: the id of every folder was
allocated after the id of its parent and below the allocation counter.  This is
the fresh-opaque-id discipline of the real backend. -/
def DriveWF (s : DriveState) : Prop :=
  ∀ f ∈ s.folders, f.parent < f.id ∧ f.id < s.nextId

/-- Predicate `chain_from s p segs q`: the (nonempty) segments of `segs` name a
chain of folders of `s` descending from parent `p` and ending at `q`. -/
def chain_from (s : DriveState) : Nat → List String → Nat → Prop
  | p, [], q => q = p
  | p, n :: rest, q =>
      if n = "" then chain_from s p rest q
      else ∃ f : DriveFolder, f ∈ s.folders ∧ f.parent = p ∧ f.name = n ∧
        chain_from s f.id rest q

/-- The folder-creation claim instantiated at the Yandex.Disk strategy
and the concrete destination `"a/b"` on an empty disk: the upload is said
to create the missing intermediate folder `"/a"` before placing the file,
i.e. it succeeds and the resulting disk holds `"/a"`. -/
def yandex_upload_creates_intermediates : Prop :=
  ∃ (d : PyDict) (y2 : YaState),
    yandex_upload (Option.some "t") true true ⟨[], []⟩ "/f" "a/b" "v.mp4" =
      Except.ok (d, y2) ∧ "/a" ∈ y2.dirs

/-!
Section: Helper lemmas
-/

theorem progressValues_nil : progressValues [] = [] := rfl

theorem progressValues_cons_progress (v : Nat) (m : String) (evs : List Event) :
    progressValues (Event.progress v m :: evs) = v :: progressValues evs := rfl

theorem progressValues_cons_error (m : String) (evs : List Event) :
    progressValues (Event.error m :: evs) = progressValues evs := rfl

theorem progressValues_cons_finished (ds : List DLRes) (us : List UpRes) (c : Bool)
    (evs : List Event) :
    progressValues (Event.finished ds us c :: evs) = progressValues evs := rfl

theorem progressValues_append (a b : List Event) :
    progressValues (a ++ b) = progressValues a ++ progressValues b :=
  List.filterMap_append a b _

theorem evIsFinished_progress (v : Nat) (m : String) :
    evIsFinished (Event.progress v m) = false := rfl

theorem evIsFinished_error (m : String) : evIsFinished (Event.error m) = false := rfl

theorem finishedCount_append (a b : List Event) :
    finishedCount (a ++ b) = finishedCount a + finishedCount b :=
  List.countP_append _ a b

/-- Monotonicity of the shared progress formula `5 + 95·a / (2·t)`. -/
theorem progress_formula_mono (t : Nat) {a b : Nat} (h : a ≤ b) :
    5 + 95 * a / (2 * t) ≤ 5 + 95 * b / (2 * t) :=
  Nat.add_le_add_left (Nat.div_le_div_right (Nat.mul_le_mul_left 95 h)) 5

/-- The progress formula stays at or below 100 while `a ≤ 2·t`. -/
theorem progress_formula_le_100 (t : Nat) {a : Nat} (h : a ≤ 2 * t) :
    5 + 95 * a / (2 * t) ≤ 100 := by
  rcases Nat.eq_zero_or_pos t with ht | ht
  · subst ht
    have ha : a = 0 := by omega
    subst ha
    simp
  · have h1 : 95 * a / (2 * t) ≤ 95 * (2 * t) / (2 * t) :=
      Nat.div_le_div_right (Nat.mul_le_mul_left 95 h)
    have h2 : 95 * (2 * t) / (2 * t) = 95 := Nat.mul_div_cancel 95 (by omega)
    omega

/-- The progress formula stays strictly below 100 while `a < 2·t`. -/
theorem progress_formula_lt_100 (t : Nat) {a : Nat} (h : a < 2 * t) :
    5 + 95 * a / (2 * t) < 100 := by
  have hpos : 0 < 2 * t := by omega
  have h1 : 95 * a / (2 * t) < 95 := by
    rw [Nat.div_lt_iff_lt_mul hpos]
    omega
  omega

theorem dl_progress_lt_100 (t : Nat) {i : Nat} (h : i < t) : dl_progress t i < 100 :=
  progress_formula_lt_100 t (by omega)

theorem up_progress_le_100 (t : Nat) {u : Nat} (h : u ≤ t) : up_progress t u ≤ 100 :=
  progress_formula_le_100 t (by omega)

theorem up_progress_lt_100 (t : Nat) {u : Nat} (h : u < t) : up_progress t u < 100 :=
  progress_formula_lt_100 t (by omega)

/-- The downloader produces exactly the results of the download step on
the URLs, in input order. -/
theorem downloader_go_results (dl : String → DLRes) (t : Nat) (urls : List String) :
    ∀ i : Nat, (downloader_go dl t urls i).2.1 = urls.map dl := by
  induction urls with
  | nil => intro i; rfl
  | cons url rest ih =>
      intro i
      by_cases h : (dl url).status = STATUS_SUCCESS <;>
        simp [downloader_go, h, ih]

/-- The handoff queue receives exactly the successful results, in order. -/
theorem downloader_go_queue (dl : String → DLRes) (t : Nat) (urls : List String) :
    ∀ i : Nat, (downloader_go dl t urls i).2.2 =
      (urls.map dl).filter (fun r => decide (r.status = STATUS_SUCCESS)) := by
  induction urls with
  | nil => intro i; rfl
  | cons url rest ih =>
      intro i
      by_cases h : (dl url).status = STATUS_SUCCESS <;>
        simp [downloader_go, h, ih]

/-- The progress values of the downloader are the formula values over the
consecutive item indices. -/
theorem downloader_go_pv (dl : String → DLRes) (t : Nat) (urls : List String) :
    ∀ i : Nat, progressValues (downloader_go dl t urls i).1 =
      (List.range' i urls.length).map (dl_progress t) := by
  induction urls with
  | nil => intro i; rfl
  | cons url rest ih =>
      intro i
      by_cases h : (dl url).status = STATUS_SUCCESS <;>
        simp [downloader_go, h, ih, List.range'_succ, progressValues_cons_progress,
          progressValues_cons_error]

/-- The downloader never emits `finished`. -/
theorem downloader_go_no_finished (dl : String → DLRes) (t : Nat) (urls : List String) :
    ∀ i : Nat, ∀ e ∈ (downloader_go dl t urls i).1, evIsFinished e = false := by
  induction urls with
  | nil => intro i e he; cases he
  | cons url rest ih =>
      intro i e he
      by_cases h : (dl url).status = STATUS_SUCCESS
      · simp only [downloader_go, h, if_pos, List.mem_cons] at he
        rcases he with rfl | he
        · rfl
        · exact ih (i + 1) e he
      · simp only [downloader_go, h, if_neg, List.mem_cons, not_false_iff] at he
        rcases he with rfl | rfl | he
        · rfl
        · rfl
        · exact ih (i + 1) e he

theorem downloader_go_finishedCount (dl : String → DLRes) (t : Nat) (urls : List String)
    (i : Nat) : finishedCount (downloader_go dl t urls i).1 = 0 := by
  apply List.countP_eq_zero.mpr
  intro a ha
  simp [downloader_go_no_finished dl t urls i a ha]

/-- The uploader produces exactly one result per queued item, namely the
result of the dispatcher on the task built from it. -/
theorem uploader_go_results (up : PipeUpTask → UpRes) (cloud folder : String)
    (t : Nat) (q : List DLRes) :
    ∀ u : Nat, (uploader_go up cloud folder t q u).2 =
      q.map (fun r => up ⟨r.path, cloud, folder, pathName r.path⟩) := by
  induction q with
  | nil => intro u; rfl
  | cons r rest ih =>
      intro u
      by_cases h : (up ⟨r.path, cloud, folder, pathName r.path⟩).status = STATUS_ERROR <;>
        simp [uploader_go, h, ih]

/-- The progress values of the uploader are the formula values over the
consecutive upload counts. -/
theorem uploader_go_pv (up : PipeUpTask → UpRes) (cloud folder : String)
    (t : Nat) (q : List DLRes) :
    ∀ u : Nat, progressValues (uploader_go up cloud folder t q u).1 =
      (List.range' (u + 1) q.length).map (up_progress t) := by
  induction q with
  | nil => intro u; rfl
  | cons r rest ih =>
      intro u
      by_cases h : (up ⟨r.path, cloud, folder, pathName r.path⟩).status = STATUS_ERROR <;>
        simp [uploader_go, h, ih, List.range'_succ, progressValues_cons_progress,
          progressValues_cons_error]

/-- The uploader never emits `finished`. -/
theorem uploader_go_no_finished (up : PipeUpTask → UpRes) (cloud folder : String)
    (t : Nat) (q : List DLRes) :
    ∀ u : Nat, ∀ e ∈ (uploader_go up cloud folder t q u).1, evIsFinished e = false := by
  induction q with
  | nil => intro u e he; cases he
  | cons r rest ih =>
      intro u e he
      by_cases h : (up ⟨r.path, cloud, folder, pathName r.path⟩).status = STATUS_ERROR
      · simp only [uploader_go, h, if_pos, List.mem_cons] at he
        rcases he with rfl | rfl | he
        · rfl
        · rfl
        · exact ih (u + 1) e he
      · simp only [uploader_go, h, if_neg, List.mem_cons, not_false_iff] at he
        rcases he with rfl | he
        · rfl
        · exact ih (u + 1) e he

theorem uploader_go_finishedCount (up : PipeUpTask → UpRes) (cloud folder : String)
    (t : Nat) (q : List DLRes) (u : Nat) :
    finishedCount (uploader_go up cloud folder t q u).1 = 0 := by
  apply List.countP_eq_zero.mpr
  intro a ha
  simp [uploader_go_no_finished up cloud folder t q u a ha]

/-- The trace shape of a normally completing run. -/
theorem worker_run_false (dl : String → DLRes) (up : PipeUpTask → UpRes)
    (urls : List String) (cloud folder : String) :
    worker_run dl up urls cloud folder false =
      Event.progress 5 ("Рабочая папка: " ++ folder) ::
        ((downloader_task dl urls).1 ++
          (if cloud = LOCAL_SAVE_OPTION then []
           else (uploader_go up cloud folder urls.length (downloader_task dl urls).2.2 0).1) ++
          [Event.finished (downloader_task dl urls).2.1
            (if cloud = LOCAL_SAVE_OPTION then []
             else (uploader_go up cloud folder urls.length (downloader_task dl urls).2.2 0).2)
            false]) := by
  by_cases h : cloud = LOCAL_SAVE_OPTION <;>
    simp [worker_run, main_pipeline, h]

/-- The trace shape of a cancelled run. -/
theorem worker_run_true (dl : String → DLRes) (up : PipeUpTask → UpRes)
    (urls : List String) (cloud folder : String) :
    worker_run dl up urls cloud folder true =
      [Event.progress 5 ("Рабочая папка: " ++ folder),
       Event.finished [] [] true] := rfl

/-- The `finished` count of a normal-run-shaped trace. -/
theorem finishedCount_shape (v : Nat) (m : String) (A B : List Event)
    (x : List DLRes) (y : List UpRes) (z : Bool) :
    finishedCount (Event.progress v m :: (A ++ B ++ [Event.finished x y z])) =
      finishedCount A + finishedCount B + 1 := by
  simp [finishedCount, List.countP_cons, List.countP_append, evIsFinished]
  omega

/-- The trace of a normal run has exactly one `finished` emission. -/
theorem worker_run_one_finished (dl : String → DLRes) (up : PipeUpTask → UpRes)
    (urls : List String) (cloud folder : String) (c : Bool) :
    finishedCount (worker_run dl up urls cloud folder c) = 1 := by
  have hd : finishedCount (downloader_task dl urls).1 = 0 := by
    rw [downloader_task]
    exact downloader_go_finishedCount dl urls.length urls 0
  have hu : finishedCount
      (uploader_go up cloud folder urls.length (downloader_task dl urls).2.2 0).1 = 0 :=
    uploader_go_finishedCount up cloud folder urls.length (downloader_task dl urls).2.2 0
  cases c
  · rw [worker_run_false]
    by_cases h : cloud = LOCAL_SAVE_OPTION
    · rw [if_pos h, if_pos h, finishedCount_shape, hd]
      rfl
    · rw [if_neg h, if_neg h, finishedCount_shape, hd, hu]
  · rw [worker_run_true]
    simp [finishedCount, List.countP_cons, evIsFinished]

/-- The last emission of a normal run is the `finished` event carrying the
per-URL download results and the upload results of the filtered queue. -/
theorem worker_run_terminal (dl : String → DLRes) (up : PipeUpTask → UpRes)
    (urls : List String) (cloud folder : String) :
    (worker_run dl up urls cloud folder false).getLast? =
      Option.some (Event.finished (urls.map dl)
        (if cloud = LOCAL_SAVE_OPTION then []
         else ((urls.map dl).filter (fun r => decide (r.status = STATUS_SUCCESS))).map
           (fun r => up ⟨r.path, cloud, folder, pathName r.path⟩))
        false) := by
  rw [worker_run_false]
  rw [show Event.progress 5 ("Рабочая папка: " ++ folder) ::
      ((downloader_task dl urls).1 ++
        (if cloud = LOCAL_SAVE_OPTION then []
         else (uploader_go up cloud folder urls.length (downloader_task dl urls).2.2 0).1) ++
        [Event.finished (downloader_task dl urls).2.1
          (if cloud = LOCAL_SAVE_OPTION then []
           else (uploader_go up cloud folder urls.length (downloader_task dl urls).2.2 0).2)
          false]) =
      (Event.progress 5 ("Рабочая папка: " ++ folder) ::
        ((downloader_task dl urls).1 ++
          (if cloud = LOCAL_SAVE_OPTION then []
           else (uploader_go up cloud folder urls.length (downloader_task dl urls).2.2 0).1))) ++
        [Event.finished (downloader_task dl urls).2.1
          (if cloud = LOCAL_SAVE_OPTION then []
           else (uploader_go up cloud folder urls.length (downloader_task dl urls).2.2 0).2)
          false] by simp]
  rw [List.getLast?_concat]
  rw [downloader_task, downloader_go_results, downloader_go_queue]
  by_cases h : cloud = LOCAL_SAVE_OPTION <;>
    simp [h, uploader_go_results]

/-!
Section: The claims
-/

/-- C2: for every pipeline run, over any URL list and any backend, the
terminal `finished` event fires exactly once (whether or not a poll
observed cancellation) and, on a normal run, it is the last emission and
carries the full per-item lists: one `DownloadResult` per input URL —
in particular even when every download failed, the run still ends in
`finished` rather than a pipeline-level error — and the upload results
of the non-local backends. -/
theorem C2_finished_fires_exactly_once (dl : String → DLRes) (up : PipeUpTask → UpRes)
    (urls : List String) (cloud folder : String) (c : Bool) :
    finishedCount (worker_run dl up urls cloud folder c) = 1 ∧
    (worker_run dl up urls cloud folder false).getLast? =
      Option.some (Event.finished (urls.map dl)
        (if cloud = LOCAL_SAVE_OPTION then []
         else ((urls.map dl).filter (fun r => decide (r.status = STATUS_SUCCESS))).map
           (fun r => up ⟨r.path, cloud, folder, pathName r.path⟩))
        false) ∧
    (urls.map dl).length = urls.length :=
  ⟨worker_run_one_finished dl up urls cloud folder c,
   worker_run_terminal dl up urls cloud folder, by simp⟩

/-- C6: the downloader activity returns exactly one `DownloadResult` per
input URL, successes and failures both counted. -/
theorem C6_one_result_per_url (dl : String → DLRes) (urls : List String)
    (_h : urls ≠ []) : (downloader_task dl urls).2.1.length = urls.length := by
  rw [downloader_task, downloader_go_results]
  simp

/-- C6 witness: a concrete two-URL batch in which both downloads fail
still yields exactly two results. -/
theorem C6_one_result_per_url_witness :
    ((["u1", "u2"] : List String) ≠ []) ∧
    (downloader_task (fun u => ⟨"ошибка", u, "", "err"⟩) ["u1", "u2"]).2.1.length = 2 :=
  ⟨by decide, C6_one_result_per_url (fun u => ⟨"ошибка", u, "", "err"⟩) ["u1", "u2"] (by decide)⟩

/-- C7: on a run targeting a non-local backend, the handoff queue holds
exactly the successful download results (failed downloads are never
queued), the uploader produces exactly one result per queued item, the
number of upload results equals the number of successful download
results, and the terminal `finished` event carries both lists. -/
theorem C7_uploads_match_successes (dl : String → DLRes) (up : PipeUpTask → UpRes)
    (urls : List String) (cloud folder : String) (h : cloud ≠ LOCAL_SAVE_OPTION) :
    (downloader_task dl urls).2.2 =
      (downloader_task dl urls).2.1.filter (fun r => decide (r.status = STATUS_SUCCESS)) ∧
    (uploader_go up cloud folder urls.length (downloader_task dl urls).2.2 0).2 =
      (downloader_task dl urls).2.2.map (fun r => up ⟨r.path, cloud, folder, pathName r.path⟩) ∧
    (uploader_go up cloud folder urls.length (downloader_task dl urls).2.2 0).2.length =
      ((downloader_task dl urls).2.1.filter (fun r => decide (r.status = STATUS_SUCCESS))).length ∧
    (worker_run dl up urls cloud folder false).getLast? =
      Option.some (Event.finished (downloader_task dl urls).2.1
        (uploader_go up cloud folder urls.length (downloader_task dl urls).2.2 0).2 false) := by
  have hq : (downloader_task dl urls).2.2 =
      (downloader_task dl urls).2.1.filter (fun r => decide (r.status = STATUS_SUCCESS)) := by
    rw [downloader_task, downloader_go_results, downloader_go_queue]
  refine ⟨hq, uploader_go_results up cloud folder urls.length _ 0, ?_, ?_⟩
  · rw [uploader_go_results, hq]
    simp
  · rw [worker_run_terminal]
    rw [if_neg h, downloader_task, downloader_go_results, downloader_go_queue,
      uploader_go_results]

/-- C9: if the cancellation flag is observed set at a poll point before
any item completes, the run terminates with `finished([], [], True)` —
partial results discarded; if the flag is never observed during the run,
the run finishes normally with `was_cancelled = False` and the full
per-item results. -/
theorem C9_cancellation_semantics (dl : String → DLRes) (up : PipeUpTask → UpRes)
    (urls : List String) (cloud folder : String) :
    worker_run dl up urls cloud folder true =
      [Event.progress 5 ("Рабочая папка: " ++ folder), Event.finished [] [] true] ∧
    ∃ ups : List UpRes, (worker_run dl up urls cloud folder false).getLast? =
      Option.some (Event.finished (urls.map dl) ups false) := by
  refine ⟨worker_run_true dl up urls cloud folder, ?_⟩
  exact ⟨_, worker_run_terminal dl up urls cloud folder⟩

/-- Every progress value of the downloader activity lies in `[5, 100)`. -/
theorem dl_pv_bounds (dl : String → DLRes) (urls : List String) :
    ∀ v ∈ progressValues (downloader_task dl urls).1, 5 ≤ v ∧ v < 100 := by
  intro v hv
  rw [downloader_task, downloader_go_pv] at hv
  obtain ⟨i, hi, rfl⟩ := List.mem_map.mp hv
  obtain ⟨-, hi2⟩ := List.mem_range'_1.mp hi
  exact ⟨Nat.le_add_right 5 _, dl_progress_lt_100 urls.length (by omega)⟩

/-- The progress values of the downloader activity are monotonically
non-decreasing in emission order. -/
theorem dl_pv_pairwise (dl : String → DLRes) (urls : List String) :
    List.Pairwise (· ≤ ·) (progressValues (downloader_task dl urls).1) := by
  rw [downloader_task, downloader_go_pv]
  exact List.pairwise_map.mpr
    ((List.pairwise_lt_range' 0 urls.length).imp
      (fun h => progress_formula_mono urls.length (Nat.le_of_lt h)))

/-- Every progress value of the uploader activity lies in `[5, 100]`
when the queue holds at most `total` items. -/
theorem up_pv_bounds (up : PipeUpTask → UpRes) (cloud folder : String)
    (t : Nat) (q : List DLRes) (hm : q.length ≤ t) :
    ∀ v ∈ progressValues (uploader_go up cloud folder t q 0).1, 5 ≤ v ∧ v ≤ 100 := by
  intro v hv
  rw [uploader_go_pv] at hv
  obtain ⟨u, hu, rfl⟩ := List.mem_map.mp hv
  obtain ⟨hu1, hu2⟩ := List.mem_range'_1.mp hu
  exact ⟨Nat.le_add_right 5 _, up_progress_le_100 t (by omega)⟩

/-- The progress values of the uploader activity are monotonically
non-decreasing in emission order. -/
theorem up_pv_pairwise (up : PipeUpTask → UpRes) (cloud folder : String)
    (t : Nat) (q : List DLRes) :
    List.Pairwise (· ≤ ·) (progressValues (uploader_go up cloud folder t q 0).1) := by
  rw [uploader_go_pv]
  exact List.pairwise_map.mpr
    ((List.pairwise_lt_range' 1 q.length).imp
      (fun h => progress_formula_mono t (by omega)))

/-- Within the uploader activity, every progress value except possibly
the last one is strictly below 100: 100 can only be the final uploader
progress emission. -/
theorem up_pv_dropLast_lt (up : PipeUpTask → UpRes) (cloud folder : String)
    (t : Nat) (q : List DLRes) (hm : q.length ≤ t) :
    ∀ v ∈ (progressValues (uploader_go up cloud folder t q 0).1).dropLast,
      v < 100 := by
  rw [uploader_go_pv]
  cases hqq : q.length with
  | zero => simp
  | succ m =>
      rw [← List.map_dropLast,
        show (List.range' 1 (m + 1)).dropLast = List.range' 1 m from by
          rw [List.range'_concat, List.dropLast_concat]]
      intro v hv
      obtain ⟨u, hu, rfl⟩ := List.mem_map.mp hv
      obtain ⟨hu1, hu2⟩ := List.mem_range'_1.mp hu
      have hm2 : m + 1 ≤ t := hqq ▸ hm
      exact up_progress_lt_100 t (by omega)

/-- C3 (amended): every emitted progress value of a run lies in `[0,100]`
(values are naturals, so only the upper bound is substantive); within the
downloader activity and within the uploader activity the emitted progress
sequences are monotonically non-decreasing; every downloader progress
value is strictly below 100; and within the uploader activity 100 can
appear only as its final progress value.  (The unamended clause "100 is
emitted only on final completion" fails: the 100 is emitted when the
handling of the final upload item begins, before the outcome of that
upload — see the counterexample.) -/
theorem C3_progress_contract (dl : String → DLRes) (up : PipeUpTask → UpRes)
    (urls : List String) (cloud folder : String) :
    (∀ v ∈ progressValues (worker_run dl up urls cloud folder false), v ≤ 100) ∧
    List.Pairwise (· ≤ ·) (progressValues (downloader_task dl urls).1) ∧
    List.Pairwise (· ≤ ·) (progressValues
      (uploader_go up cloud folder urls.length (downloader_task dl urls).2.2 0).1) ∧
    (∀ v ∈ progressValues (downloader_task dl urls).1, v < 100) ∧
    (∀ v ∈ (progressValues
        (uploader_go up cloud folder urls.length (downloader_task dl urls).2.2 0).1).dropLast,
      v < 100) := by
  have hm : (downloader_task dl urls).2.2.length ≤ urls.length := by
    rw [downloader_task, downloader_go_queue]
    calc ((urls.map dl).filter (fun r => decide (r.status = STATUS_SUCCESS))).length
        ≤ (urls.map dl).length := List.length_filter_le _ _
      _ = urls.length := by simp
  refine ⟨?_, dl_pv_pairwise dl urls,
    up_pv_pairwise up cloud folder urls.length _,
    fun v hv => (dl_pv_bounds dl urls v hv).2,
    up_pv_dropLast_lt up cloud folder urls.length _ hm⟩
  intro v hv
  rw [worker_run_false] at hv
  by_cases hl : cloud = LOCAL_SAVE_OPTION
  · simp only [hl, if_true, eq_self_iff_true, progressValues_cons_progress,
      progressValues_append, progressValues_nil, progressValues_cons_finished,
      List.append_nil, List.mem_cons, List.mem_append] at hv
    rcases hv with rfl | hv
    · omega
    · exact (dl_pv_bounds dl urls v hv).2.le
  · simp only [hl, if_false, progressValues_cons_progress, progressValues_append,
      progressValues_nil, progressValues_cons_finished, List.append_nil,
      List.mem_cons, List.mem_append] at hv
    rcases hv with rfl | hv | hv
    · omega
    · exact (dl_pv_bounds dl urls v hv).2.le
    · exact (up_pv_bounds up cloud folder urls.length _ hm v hv).2

/-- C3 counterexample to the claim as stated: in the concrete run with
one URL whose download succeeds and whose upload then fails, the trace is
`[progress 5, progress 5, progress 100, error, finished]` — the
progress-100 event is followed by a non-`finished` emission, so 100 is
emitted strictly before final completion. -/
theorem C3_counterexample :
    ¬ hundred_only_at_completion
      (worker_run (fun _ => ⟨"успех", "u1", "/tmp/v.mp4", ""⟩)
        (fun _ => ⟨"ошибка", "boom"⟩) ["u1"] "Google Drive" "f" false) := by
  unfold hundred_only_at_completion
  decide

/-- C3 witness: the amended contract applied to two concrete runs — one
URL downloading successfully and failing to upload (whole-run progress
values `[5, 5, 100]`, downloader values `[5]`), and two URLs both
succeeding end to end (uploader values `[76, 100]`, so the non-final
uploader value 76 is below 100). -/
theorem C3_progress_contract_witness :
    (100 : Nat) ≤ 100 ∧
    List.Pairwise (· ≤ ·) (progressValues
      (downloader_task (fun _ => (⟨"успех", "u1", "/tmp/v.mp4", ""⟩ : DLRes)) ["u1"]).1) ∧
    List.Pairwise (· ≤ ·) (progressValues
      (uploader_go (fun _ => (⟨"ошибка", "boom"⟩ : UpRes)) "Google Drive" "f" 1
        (downloader_task (fun _ => (⟨"успех", "u1", "/tmp/v.mp4", ""⟩ : DLRes)) ["u1"]).2.2
        0).1) ∧
    (5 : Nat) < 100 ∧
    (76 : Nat) < 100 :=
  ⟨(C3_progress_contract (fun _ => ⟨"успех", "u1", "/tmp/v.mp4", ""⟩)
      (fun _ => ⟨"ошибка", "boom"⟩) ["u1"] "Google Drive" "f").1 100 (by decide),
   (C3_progress_contract (fun _ => ⟨"успех", "u1", "/tmp/v.mp4", ""⟩)
      (fun _ => ⟨"ошибка", "boom"⟩) ["u1"] "Google Drive" "f").2.1,
   (C3_progress_contract (fun _ => ⟨"успех", "u1", "/tmp/v.mp4", ""⟩)
      (fun _ => ⟨"ошибка", "boom"⟩) ["u1"] "Google Drive" "f").2.2.1,
   (C3_progress_contract (fun _ => ⟨"успех", "u1", "/tmp/v.mp4", ""⟩)
      (fun _ => ⟨"ошибка", "boom"⟩) ["u1"] "Google Drive" "f").2.2.2.1 5 (by decide),
   (C3_progress_contract (fun u => ⟨"успех", u, "/t/x.mp4", ""⟩)
      (fun _ => ⟨"успех", ""⟩) ["u1", "u2"] "Google Drive" "f").2.2.2.2 76 (by decide)⟩

/-!
Section: Folder-chain lemmas (Google Drive model)
-/

/-- Members of the query result are folders of the state with the queried
parent and name. -/
theorem drive_list_query_mem {s : DriveState} {p : Nat} {n : String} {f : DriveFolder}
    (h : f ∈ drive_list_query s p n) : f ∈ s.folders ∧ f.parent = p ∧ f.name = n := by
  have h2 := List.mem_filter.mp h
  have h3 : f.parent = p ∧ f.name = n := by simpa using h2.2
  exact ⟨h2.1, h3.1, h3.2⟩

/-- Method `_find_or_create_folder` returns the id of a folder with the requested
parent and name that is present in the resulting state. -/
theorem find_or_create_folder_mem (s : DriveState) (p : Nat) (n : String) :
    ∃ f : DriveFolder, f ∈ (find_or_create_folder s p n).2.folders ∧
      f.parent = p ∧ f.name = n ∧ f.id = (find_or_create_folder s p n).1 := by
  cases hq : drive_list_query s p n with
  | nil =>
      refine ⟨⟨s.nextId, p, n⟩, ?_, rfl, rfl, ?_⟩ <;>
        simp [find_or_create_folder, hq]
  | cons f rest =>
      have hf : f ∈ drive_list_query s p n := by
        rw [hq]; exact List.mem_cons_self f rest
      obtain ⟨hmem, hp, hn⟩ := drive_list_query_mem hf
      exact ⟨f, by simp [find_or_create_folder, hq, hmem], hp, hn, by
        simp [find_or_create_folder, hq]⟩

/-- Method `_find_or_create_folder` never removes folders. -/
theorem find_or_create_folder_subset {s : DriveState} (p : Nat) (n : String)
    {f : DriveFolder} (h : f ∈ s.folders) :
    f ∈ (find_or_create_folder s p n).2.folders := by
  cases hq : drive_list_query s p n with
  | nil => simp [find_or_create_folder, hq, h]
  | cons g rest => simpa [find_or_create_folder, hq] using h

/-- The chain walk never removes folders. -/
theorem create_folders_chain_go_subset (segs : List String) :
    ∀ (s : DriveState) (p : Nat) (f : DriveFolder), f ∈ s.folders →
      f ∈ (create_folders_chain_go s p segs).2.folders := by
  induction segs with
  | nil => intro s p f h; exact h
  | cons n rest ih =>
      intro s p f h
      by_cases hn : n = ""
      · rw [show create_folders_chain_go s p (n :: rest) =
            create_folders_chain_go s p rest by simp [create_folders_chain_go, hn]]
        exact ih s p f h
      · rw [show create_folders_chain_go s p (n :: rest) =
            create_folders_chain_go (find_or_create_folder s p n).2
              (find_or_create_folder s p n).1 rest by
          simp [create_folders_chain_go, hn]]
        exact ih _ _ f (find_or_create_folder_subset p n h)

/-- Predicate `chain_from` is monotone in the folder table. -/
theorem chain_from_mono (segs : List String) :
    ∀ (s t : DriveState) (p q : Nat), (∀ f ∈ s.folders, f ∈ t.folders) →
      chain_from s p segs q → chain_from t p segs q := by
  induction segs with
  | nil => intro s t p q _ hc; exact hc
  | cons n rest ih =>
      intro s t p q hsub hc
      by_cases hn : n = ""
      · rw [chain_from, if_pos hn] at hc ⊢
        exact ih s t p q hsub hc
      · rw [chain_from, if_neg hn] at hc ⊢
        obtain ⟨f, hf, hfp, hfn, hrest⟩ := hc
        exact ⟨f, hsub f hf, hfp, hfn, ih s t f.id q hsub hrest⟩

/-- After the chain walk, the whole requested folder chain exists in the
resulting state and ends at the returned id. -/
theorem create_folders_chain_go_chain (segs : List String) :
    ∀ (s : DriveState) (p : Nat),
      chain_from (create_folders_chain_go s p segs).2 p segs
        (create_folders_chain_go s p segs).1 := by
  induction segs with
  | nil => intro s p; rfl
  | cons n rest ih =>
      intro s p
      by_cases hn : n = ""
      · rw [show create_folders_chain_go s p (n :: rest) =
            create_folders_chain_go s p rest by simp [create_folders_chain_go, hn]]
        rw [chain_from, if_pos hn]
        exact ih s p
      · rw [show create_folders_chain_go s p (n :: rest) =
            create_folders_chain_go (find_or_create_folder s p n).2
              (find_or_create_folder s p n).1 rest by
          simp [create_folders_chain_go, hn]]
        rw [chain_from, if_neg hn]
        obtain ⟨f, hfmem, hfp, hfn, hfid⟩ := find_or_create_folder_mem s p n
        refine ⟨f, create_folders_chain_go_subset rest _ _ f hfmem, hfp, hfn, ?_⟩
        rw [hfid]
        exact ih (find_or_create_folder s p n).2 (find_or_create_folder s p n).1

/-- Allocation facts of `_find_or_create_folder` under the fresh-id
discipline: the returned id is a strict descendant of the parent, the
counter only grows, well-formedness is kept, and the only possible new
folder row has the requested parent. -/
theorem find_or_create_folder_spec (s : DriveState) (p : Nat) (n : String)
    (hWF : DriveWF s) (hp : p < s.nextId) :
    p < (find_or_create_folder s p n).1 ∧
    (find_or_create_folder s p n).1 < (find_or_create_folder s p n).2.nextId ∧
    s.nextId ≤ (find_or_create_folder s p n).2.nextId ∧
    DriveWF (find_or_create_folder s p n).2 ∧
    ∃ added, (find_or_create_folder s p n).2.folders = added ++ s.folders ∧
      ∀ g ∈ added, g.parent = p := by
  cases hq : drive_list_query s p n with
  | nil =>
      have hfoc : find_or_create_folder s p n =
          (s.nextId, { s with folders := ⟨s.nextId, p, n⟩ :: s.folders,
                              nextId := s.nextId + 1 }) := by
        simp [find_or_create_folder, hq]
      rw [hfoc]
      dsimp only
      refine ⟨hp, by omega, by omega, ?_, [⟨s.nextId, p, n⟩], rfl, ?_⟩
      · intro f hf
        rcases List.mem_cons.mp hf with rfl | hf
        · exact ⟨hp, by show s.nextId < s.nextId + 1; omega⟩
        · obtain ⟨h1, h2⟩ := hWF f hf
          exact ⟨h1, by show f.id < s.nextId + 1; omega⟩
      · intro g hg
        rcases List.mem_cons.mp hg with rfl | hg
        · rfl
        · cases hg
  | cons f rest =>
      have hf : f ∈ drive_list_query s p n := by
        rw [hq]; exact List.mem_cons_self f rest
      obtain ⟨hmem, hpar, -⟩ := drive_list_query_mem hf
      obtain ⟨h1, h2⟩ := hWF f hmem
      have hfoc : find_or_create_folder s p n = (f.id, s) := by
        simp [find_or_create_folder, hq]
      rw [hfoc]
      refine ⟨by omega, h2, Nat.le_refl _, hWF, [], rfl, ?_⟩
      intro g hg
      cases hg

/-- Walk facts of the chain creation: the returned id descends from the
parent, the counter only grows, well-formedness is kept, and every folder
row added during the walk hangs at or below the start parent of the walk. -/
theorem create_folders_chain_go_spec (segs : List String) :
    ∀ (s : DriveState) (p : Nat), DriveWF s → p < s.nextId →
      p ≤ (create_folders_chain_go s p segs).1 ∧
      (create_folders_chain_go s p segs).1 < (create_folders_chain_go s p segs).2.nextId ∧
      s.nextId ≤ (create_folders_chain_go s p segs).2.nextId ∧
      DriveWF (create_folders_chain_go s p segs).2 ∧
      ∃ added, (create_folders_chain_go s p segs).2.folders = added ++ s.folders ∧
        ∀ g ∈ added, p ≤ g.parent := by
  induction segs with
  | nil =>
      intro s p hWF hp
      exact ⟨Nat.le_refl p, hp, Nat.le_refl _, hWF, [], rfl, by simp⟩
  | cons n rest ih =>
      intro s p hWF hp
      by_cases hn : n = ""
      · rw [show create_folders_chain_go s p (n :: rest) =
            create_folders_chain_go s p rest by simp [create_folders_chain_go, hn]]
        exact ih s p hWF hp
      · rw [show create_folders_chain_go s p (n :: rest) =
            create_folders_chain_go (find_or_create_folder s p n).2
              (find_or_create_folder s p n).1 rest by
          simp [create_folders_chain_go, hn]]
        obtain ⟨h1, h2, h3, h4, added0, hadd0, hpar0⟩ :=
          find_or_create_folder_spec s p n hWF hp
        obtain ⟨g1, g2, g3, g4, added1, hadd1, hpar1⟩ :=
          ih (find_or_create_folder s p n).2 (find_or_create_folder s p n).1 h4 h2
        refine ⟨Nat.le_trans (Nat.le_of_lt h1) g1, g2, Nat.le_trans h3 g3, g4,
          added1 ++ added0, ?_, ?_⟩
        · rw [hadd1, hadd0, List.append_assoc]
        · intro g hg
          rcases List.mem_append.mp hg with hg | hg
          · exact Nat.le_trans (Nat.le_of_lt h1) (hpar1 g hg)
          · rw [hpar0 g hg]

/-- Unfolding the chain walk over an empty segment. -/
theorem create_folders_chain_go_cons_empty (s : DriveState) (p : Nat)
    (rest : List String) :
    create_folders_chain_go s p ("" :: rest) = create_folders_chain_go s p rest := by
  simp [create_folders_chain_go]

/-- Unfolding the chain walk over a nonempty segment. -/
theorem create_folders_chain_go_cons (s : DriveState) (p : Nat) {n : String}
    (hn : n ≠ "") (rest : List String) :
    create_folders_chain_go s p (n :: rest) =
      create_folders_chain_go (find_or_create_folder s p n).2
        (find_or_create_folder s p n).1 rest := by
  simp [create_folders_chain_go, hn]

/-- Re-running the chain walk on its own output state changes nothing:
the query of each segment now finds the folder the first walk used (the creations
of the first walk are consed in front and no folder added later in the
walk can shadow an earlier query, because all later additions hang at
strictly deeper parents). -/
theorem create_folders_chain_go_idem (segs : List String) :
    ∀ (s : DriveState) (p : Nat), DriveWF s → p < s.nextId →
      create_folders_chain_go (create_folders_chain_go s p segs).2 p segs =
        create_folders_chain_go s p segs := by
  induction segs with
  | nil => intro s p _ _; rfl
  | cons n rest ih =>
      intro s p hWF hp
      by_cases hn : n = ""
      · subst hn
        rw [create_folders_chain_go_cons_empty, create_folders_chain_go_cons_empty]
        exact ih s p hWF hp
      · rw [create_folders_chain_go_cons s p hn rest]
        obtain ⟨hpf, hfmid, hsnext, hWFmid, added0, hadd0, hpar0⟩ :=
          find_or_create_folder_spec s p n hWF hp
        obtain ⟨g1, g2, g3, g4, added1, hadd1, hpar1⟩ :=
          create_folders_chain_go_spec rest (find_or_create_folder s p n).2
            (find_or_create_folder s p n).1 hWFmid hfmid
        have hq2 : drive_list_query
            (create_folders_chain_go (find_or_create_folder s p n).2
              (find_or_create_folder s p n).1 rest).2 p n =
            drive_list_query (find_or_create_folder s p n).2 p n := by
          unfold drive_list_query
          rw [hadd1, List.filter_append]
          have hnil : added1.filter (fun f => decide (f.parent = p ∧ f.name = n)) = [] := by
            apply List.filter_eq_nil_iff.mpr
            intro g hg
            simp only [decide_eq_true_eq, not_and]
            intro hgp
            have h1 := hpar1 g hg
            omega
          rw [hnil, List.nil_append]
        have hfoc2 : find_or_create_folder
            (create_folders_chain_go (find_or_create_folder s p n).2
              (find_or_create_folder s p n).1 rest).2 p n =
            ((find_or_create_folder s p n).1,
             (create_folders_chain_go (find_or_create_folder s p n).2
               (find_or_create_folder s p n).1 rest).2) := by
          cases hq : drive_list_query s p n with
          | nil =>
              have hfoc : find_or_create_folder s p n =
                  (s.nextId, { s with folders := ⟨s.nextId, p, n⟩ :: s.folders,
                                      nextId := s.nextId + 1 }) := by
                simp [find_or_create_folder, hq]
              have hqs : s.folders.filter (fun f => decide (f.parent = p ∧ f.name = n)) = [] := hq
              have hqmid : drive_list_query (find_or_create_folder s p n).2 p n =
                  [⟨s.nextId, p, n⟩] := by
                rw [hfoc]
                show List.filter _ (⟨s.nextId, p, n⟩ :: s.folders) = _
                rw [List.filter_cons_of_pos (by simp), hqs]
              rw [find_or_create_folder.eq_def, hq2, hqmid, hfoc]
          | cons f0 r0 =>
              have hfoc : find_or_create_folder s p n = (f0.id, s) := by
                simp [find_or_create_folder, hq]
              have hqmid : drive_list_query (find_or_create_folder s p n).2 p n =
                  f0 :: r0 := by
                rw [hfoc]
                exact hq
              rw [find_or_create_folder.eq_def, hq2, hqmid, hfoc]
        rw [create_folders_chain_go_cons _ p hn rest, hfoc2]
        exact ih (find_or_create_folder s p n).2 (find_or_create_folder s p n).1
          hWFmid hfmid

/-- From a state in which every folder hangs strictly above the start parent
of the walk — in particular from an empty table — the chain walk creates
exactly one folder per nonempty segment. -/
theorem create_folders_chain_go_count (segs : List String) :
    ∀ (s : DriveState) (p : Nat), DriveWF s → p < s.nextId →
      (∀ g ∈ s.folders, g.parent < p) →
      (create_folders_chain_go s p segs).2.folders.length =
        (segs.filter (fun n => decide (n ≠ ""))).length + s.folders.length := by
  induction segs with
  | nil => intro s p _ _ _; simp [create_folders_chain_go]
  | cons n rest ih =>
      intro s p hWF hp hpar
      by_cases hn : n = ""
      · subst hn
        rw [create_folders_chain_go_cons_empty, ih s p hWF hp hpar]
        simp
      · have hq : drive_list_query s p n = [] := by
          apply List.filter_eq_nil_iff.mpr
          intro g hg
          simp only [decide_eq_true_eq, not_and]
          intro hgp
          have h1 := hpar g hg
          omega
        have hfoc : find_or_create_folder s p n =
            (s.nextId, { s with folders := ⟨s.nextId, p, n⟩ :: s.folders,
                                nextId := s.nextId + 1 }) := by
          simp [find_or_create_folder, hq]
        have hWF2 : DriveWF { s with folders := ⟨s.nextId, p, n⟩ :: s.folders,
                                     nextId := s.nextId + 1 } := by
          intro f hf
          rcases List.mem_cons.mp hf with rfl | hf
          · exact ⟨hp, by show s.nextId < s.nextId + 1; omega⟩
          · obtain ⟨h1, h2⟩ := hWF f hf
            exact ⟨h1, by show f.id < s.nextId + 1; omega⟩
        have hpar2 : ∀ g ∈ ({ s with folders := ⟨s.nextId, p, n⟩ :: s.folders,
                                      nextId := s.nextId + 1 } : DriveState).folders,
            g.parent < s.nextId := by
          intro g hg
          rcases List.mem_cons.mp hg with rfl | hg
          · exact hp
          · have h1 := hpar g hg
            omega
        rw [create_folders_chain_go_cons s p hn rest, hfoc]
        dsimp only
        rw [ih _ s.nextId hWF2 (by show s.nextId < s.nextId + 1; omega) hpar2]
        rw [List.filter_cons]
        simp [hn]
        omega

/-- C4 (amended): the Google Drive strategy finds-or-creates the whole
destination folder chain segment by segment by name match under the
current parent and places the file under the resulting folder; the local
strategy creates the destination directory tree recursively before
placing the file; the Yandex.Disk strategy, however, never creates
missing intermediate folders — it only existence-checks and `mkdir`s the
complete destination path as one directory, so on success the only
directory it can have added is the full path itself, and when the parent
of that path is absent the single `mkdir` raises and the whole upload
fails with an `UploadError`. -/
theorem C4_folder_creation (s : DriveState) (fsys : FS) (yst : YaState)
    (tok fp path filename : String) :
    (∀ (d : PyDict) (s2 : DriveState),
      upload_sync true s path filename = Except.ok (d, s2) →
      chain_from s2 driveRootId (path_segments path)
        (create_folders_chain s driveRootId path).1 ∧
      ((create_folders_chain s driveRootId path).1, filename) ∈ s2.files) ∧
    (∀ (d : PyDict) (fs2 : FS),
      local_upload true fsys fp path filename = Except.ok (d, fs2) →
      (∀ a ∈ mkdir_parents path, a ∈ fs2.dirs) ∧
      (path ++ "/" ++ filename) ∈ fs2.files) ∧
    (∀ (d : PyDict) (y2 : YaState),
      yandex_upload (Option.some tok) true true yst fp path filename =
        Except.ok (d, y2) →
      (∀ a ∈ y2.dirs, a ∈ yst.dirs ∨ a = "/" ++ strip_slashes path) ∧
      ("/" ++ strip_slashes path ++ "/" ++ filename, fp) ∈ y2.files) ∧
    (path ≠ "" →
      ("/" ++ strip_slashes path) ∉ yst.dirs →
      ¬ ya_parent_exists yst ("/" ++ strip_slashes path) →
      yandex_upload (Option.some tok) true true yst fp path filename =
        Except.error "Ошибка API Яндекс.Диска: родительская папка не найдена") := by
  refine ⟨?_, ?_, ?_, ?_⟩
  · intro d s2 h
    simp only [upload_sync] at h
    rw [if_neg (by simp)] at h
    rw [Except.ok.injEq, Prod.mk.injEq] at h
    obtain ⟨-, h2⟩ := h
    subst h2
    constructor
    · exact chain_from_mono (path_segments path)
        (create_folders_chain s driveRootId path).2
        { (create_folders_chain s driveRootId path).2 with
            files := ((create_folders_chain s driveRootId path).1, filename) ::
              (create_folders_chain s driveRootId path).2.files }
        driveRootId (create_folders_chain s driveRootId path).1
        (fun f hf => hf)
        (create_folders_chain_go_chain (path_segments path) s driveRootId)
    · exact List.mem_cons_self _ _
  · intro d fs2 h
    simp only [local_upload] at h
    rw [if_neg (by simp)] at h
    rw [Except.ok.injEq, Prod.mk.injEq] at h
    obtain ⟨-, h2⟩ := h
    subst h2
    exact ⟨fun a ha => List.mem_append_left _ ha, List.mem_cons_self _ _⟩
  · intro d y2 h
    simp only [yandex_upload, Bind.bind, Except.bind] at h
    rw [if_neg (by simp), if_neg (by simp)] at h
    split at h
    · split at h
      · simp only [Except.ok.injEq, Prod.mk.injEq] at h
        obtain ⟨-, h2⟩ := h
        subst h2
        refine ⟨?_, List.mem_cons_self _ _⟩
        intro a ha
        rcases List.mem_cons.mp ha with rfl | ha
        · exact Or.inr rfl
        · exact Or.inl ha
      · exact Except.noConfusion h
    · simp only [Except.ok.injEq, Prod.mk.injEq] at h
      obtain ⟨-, h2⟩ := h
      subst h2
      exact ⟨fun a ha => Or.inl ha, List.mem_cons_self _ _⟩
  · intro h1 h2 h3
    simp only [yandex_upload, Bind.bind, Except.bind]
    rw [if_neg (by simp), if_neg (by simp), if_pos ⟨h1, h2⟩, if_neg h3]

/-- C4 counterexample to the claim as stated: asked to upload to the
two-segment destination `"a/b"` on an empty Yandex.Disk, the strategy
does not create the missing intermediate folder `"/a"` and then place the
file — its single `mkdir` of the full path `"/a/b"` fails for want of
`"/a"` and the upload raises, so no run of it yields a success state
holding `"/a"`. -/
theorem C4_counterexample : ¬ yandex_upload_creates_intermediates := by
  rintro ⟨d, y2, h, -⟩
  have h2 : (Except.error "Ошибка API Яндекс.Диска: родительская папка не найдена" :
      Except String (PyDict × YaState)) = Except.ok (d, y2) := h
  exact Except.noConfusion h2

/-- C4 witness: the amended statement applied to destination `"a/b"` —
on empty Drive and local backends the chain `root → "a" → "b"` and the
tree `a`, `a/b` exist afterwards and hold the file; on a Yandex disk
already holding the parent `"/a"` the upload succeeds adding only the
full path and placing the file, while on an empty Yandex disk the upload
raises. -/
theorem C4_folder_creation_witness :
    chain_from ⟨[⟨2, 1, "b"⟩, ⟨1, 0, "a"⟩], [(2, "v.mp4")], 3⟩ driveRootId
      (path_segments "a/b") 2 ∧
    ((2 : Nat), "v.mp4") ∈ ([(2, "v.mp4")] : List (Nat × String)) ∧
    "a" ∈ (["a", "a/b"] : List String) ∧
    ("a/b/v.mp4" : String) ∈ (["a/b/v.mp4"] : List String) ∧
    (("/a/b/v.mp4", "/f") : String × String) ∈ ([("/a/b/v.mp4", "/f")] :
      List (String × String)) ∧
    yandex_upload (Option.some "t") true true ⟨[], []⟩ "/f" "a/b" "v.mp4" =
      Except.error "Ошибка API Яндекс.Диска: родительская папка не найдена" :=
  ⟨((C4_folder_creation ⟨[], [], 1⟩ ⟨[], []⟩ ⟨["/a"], []⟩ "t" "/f" "a/b" "v.mp4").1
      _ _ rfl).1,
   ((C4_folder_creation ⟨[], [], 1⟩ ⟨[], []⟩ ⟨["/a"], []⟩ "t" "/f" "a/b" "v.mp4").1
      _ _ rfl).2,
   ((C4_folder_creation ⟨[], [], 1⟩ ⟨[], []⟩ ⟨["/a"], []⟩ "t" "/f" "a/b" "v.mp4").2.1
      _ _ rfl).1 "a" (by decide),
   ((C4_folder_creation ⟨[], [], 1⟩ ⟨[], []⟩ ⟨["/a"], []⟩ "t" "/f" "a/b" "v.mp4").2.1
      _ _ rfl).2,
   ((C4_folder_creation ⟨[], [], 1⟩ ⟨[], []⟩ ⟨["/a"], []⟩ "t" "/f" "a/b" "v.mp4").2.2.1
      _ _ rfl).2,
   (C4_folder_creation ⟨[], [], 1⟩ ⟨[], []⟩ ⟨[], []⟩ "t" "/f" "a/b" "v.mp4").2.2.2
      (by decide) (by decide) (by decide)⟩

/-- C5: folder-chain creation is idempotent — rerunning
`_create_folders_chain` on the state it produced returns the same folder
id and leaves the state unchanged (no duplicate folders are ever
created, because every segment queries before creating), and from an
empty folder table the chain holds exactly one folder per nonempty path
segment. -/
theorem C5_chain_idempotent (s : DriveState) (rootId : Nat) (path : String)
    (hWF : DriveWF s) (hroot : rootId < s.nextId) :
    create_folders_chain (create_folders_chain s rootId path).2 rootId path =
      create_folders_chain s rootId path ∧
    (create_folders_chain ⟨[], [], rootId + 1⟩ rootId path).2.folders.length =
      ((path_segments path).filter (fun n => decide (n ≠ ""))).length := by
  constructor
  · exact create_folders_chain_go_idem (path_segments path) s rootId hWF hroot
  · have h := create_folders_chain_go_count (path_segments path)
      ⟨[], [], rootId + 1⟩ rootId (fun f hf => absurd hf (List.not_mem_nil f))
      (by show rootId < rootId + 1; omega)
      (fun g hg => absurd hg (List.not_mem_nil g))
    simpa using h

/-- C5 witness: the concrete chain `"a/b"` built from an empty table —
rerunning it is a no-op and it holds exactly two folders. -/
theorem C5_chain_idempotent_witness :
    create_folders_chain (create_folders_chain ⟨[], [], 1⟩ 0 "a/b").2 0 "a/b" =
      create_folders_chain ⟨[], [], 1⟩ 0 "a/b" ∧
    (create_folders_chain ⟨[], [], 1⟩ 0 "a/b").2.folders.length = 2 :=
  ⟨(C5_chain_idempotent ⟨[], [], 1⟩ 0 "a/b"
      (fun f hf => absurd hf (List.not_mem_nil f)) (by show (0 : Nat) < 1; decide)).1,
   ((C5_chain_idempotent ⟨[], [], 1⟩ 0 "a/b"
      (fun f hf => absurd hf (List.not_mem_nil f))
      (by show (0 : Nat) < 1; decide)).2).trans (by decide)⟩

/-- C7 witness: two URLs, one download succeeds and one fails, targeting
Google Drive — one upload result, matching the one successful download. -/
theorem C7_uploads_match_successes_witness :
    (("Google Drive" : String) ≠ LOCAL_SAVE_OPTION) ∧
    (uploader_go (fun _ => (⟨"успех", ""⟩ : UpRes)) "Google Drive" "f"
      (["u1", "u2"] : List String).length
      (downloader_task (fun u => if u = "u1" then (⟨"успех", u, "/t/a.mp4", ""⟩ : DLRes)
        else ⟨"ошибка", u, "", "e"⟩) ["u1", "u2"]).2.2 0).2.length =
    ((downloader_task (fun u => if u = "u1" then (⟨"успех", u, "/t/a.mp4", ""⟩ : DLRes)
        else ⟨"ошибка", u, "", "e"⟩) ["u1", "u2"]).2.1.filter
      (fun r => decide (r.status = STATUS_SUCCESS))).length :=
  ⟨by decide,
   (C7_uploads_match_successes
      (fun u => if u = "u1" then (⟨"успех", u, "/t/a.mp4", ""⟩ : DLRes)
        else ⟨"ошибка", u, "", "e"⟩)
      (fun _ => (⟨"успех", ""⟩ : UpRes)) ["u1", "u2"] "Google Drive" "f"
      (by decide)).2.2.1⟩

/-!
Section: Dispatcher lemmas
-/

theorem dget_dset_same (r : PyDict) (k : String) (v : PyVal) :
    dget (dset r k v) k = Option.some v := by
  simp [dget, dset]

theorem dget_dset_ne (r : PyDict) (k k' : String) (v : PyVal) (h : k ≠ k') :
    dget (dset r k v) k' = dget r k' := by
  simp [dget, dset, h]

/-- The result dict a strategy returns normally has
`"status" = STATUS_SUCCESS` (failures are raised, not returned). -/
theorem strategy_upload_ok_status (env : Env) (kind : StrategyKind)
    (fp folder fn : String) (r : PyDict)
    (h : strategy_upload env kind fp folder fn = Except.ok r) :
    dget r "status" = Option.some (PyVal.str STATUS_SUCCESS) := by
  cases kind with
  | googleDrive =>
      cases hc : env.gCreds with
      | false => simp [strategy_upload, upload_sync, hc, Except.map] at h
      | true =>
          simp only [strategy_upload, upload_sync, hc, Bool.true_eq_false,
            if_false, Except.map, Except.ok.injEq] at h
          subst h
          rfl
  | yandexDisk =>
      cases htk : env.yaToken with
      | none => simp [strategy_upload, yandex_upload, htk, Except.map] at h
      | some tk =>
          cases hok : env.yaOk with
          | false => simp [strategy_upload, yandex_upload, htk, hok, Except.map] at h
          | true =>
              cases hv : env.yaTokenValid with
              | false =>
                  simp [strategy_upload, yandex_upload, htk, hok, hv, Except.map] at h
              | true =>
                  by_cases hc : folder ≠ "" ∧ ("/" ++ strip_slashes folder) ∉ env.ya.dirs
                  · by_cases hp : ya_parent_exists env.ya ("/" ++ strip_slashes folder)
                    · simp only [strategy_upload, yandex_upload, htk, hok, hv,
                        Bool.true_eq_false, if_false, if_pos hc, if_pos hp,
                        Bind.bind, Except.bind, Except.map, Except.ok.injEq] at h
                      subst h
                      rfl
                    · simp only [strategy_upload, yandex_upload, htk, hok, hv,
                        Bool.true_eq_false, if_false, if_pos hc, if_neg hp,
                        Bind.bind, Except.bind, Except.map] at h
                      exact Except.noConfusion h
                  · simp only [strategy_upload, yandex_upload, htk, hok, hv,
                      Bool.true_eq_false, if_false, if_neg hc,
                      Bind.bind, Except.bind, Except.map, Except.ok.injEq] at h
                    subst h
                    rfl
  | localSave =>
      cases ho : env.osOk with
      | false => simp [strategy_upload, local_upload, ho, Except.map] at h
      | true =>
          simp only [strategy_upload, local_upload, ho, Bool.true_eq_false,
            if_false, Except.map, Except.ok.injEq] at h
          subst h
          rfl

/-!
Section: Claims about the dispatcher and the download step
-/

/-- C8: the upload dispatcher `upload_single_file` never raises — it is a
total function into result dicts.  A task naming a backend with no
registered strategy yields an immediate error dict whose message contains
the backend name verbatim; any exception raised inside the `try:` body
(missing task keys or a strategy failure) is normalized into an error
dict carrying the filename and the exception message; and the
normal result of a strategy is passed through. -/
theorem C8_dispatcher_never_raises (env : Env) (task : Task) :
    (∀ n : String, task.cloud_storage = Option.some n →
      lookup_strategy (Option.some n) = Option.none →
      upload_single_file env task =
        [("status", PyVal.str STATUS_ERROR),
         ("filename", pyOpt task.filename),
         ("error", PyVal.str
           ("Не найдена стратегия для хранилища \x27" ++ n ++ "\x27."))]) ∧
    (∀ (kind : StrategyKind) (e : String),
      lookup_strategy task.cloud_storage = Option.some kind →
      upload_try env kind task = Except.error e →
      upload_single_file env task =
        [("status", PyVal.str STATUS_ERROR),
         ("filename", pyOpt task.filename),
         ("error", PyVal.str e)]) ∧
    (∀ (kind : StrategyKind) (r : PyDict),
      lookup_strategy task.cloud_storage = Option.some kind →
      upload_try env kind task = Except.ok r →
      upload_single_file env task = r) := by
  refine ⟨?_, ?_, ?_⟩
  · intro n hcs hlk
    simp only [upload_single_file, hcs, hlk, pyShow]
  · intro kind e hlk ht
    simp only [upload_single_file, hlk, ht]
  · intro kind r hlk ht
    simp only [upload_single_file, hlk, ht]

/-- C8 witness: dispatching to the unregistered backend `"Dropbox"`
returns the error dict naming it, and a task missing its `file_path` key
under a registered backend is normalized into an error dict carrying the
`KeyError` text. -/
theorem C8_dispatcher_never_raises_witness :
    upload_single_file
      ⟨Option.some "t", true, true, ⟨[], []⟩, true, ⟨[], [], 1⟩, true, ⟨[], []⟩⟩
      ⟨Option.some "Dropbox", Option.some "/f", Option.some "d", Option.some "v"⟩ =
      [("status", PyVal.str STATUS_ERROR),
       ("filename", PyVal.str "v"),
       ("error", PyVal.str "Не найдена стратегия для хранилища \x27Dropbox\x27.")] ∧
    upload_single_file
      ⟨Option.some "t", true, true, ⟨[], []⟩, true, ⟨[], [], 1⟩, true, ⟨[], []⟩⟩
      ⟨Option.some "Google Drive", Option.none, Option.some "d", Option.some "v"⟩ =
      [("status", PyVal.str STATUS_ERROR),
       ("filename", PyVal.str "v"),
       ("error", PyVal.str "\x27file_path\x27")] :=
  ⟨(C8_dispatcher_never_raises
      ⟨Option.some "t", true, true, ⟨[], []⟩, true, ⟨[], [], 1⟩, true, ⟨[], []⟩⟩
      ⟨Option.some "Dropbox", Option.some "/f", Option.some "d", Option.some "v"⟩).1
      "Dropbox" rfl rfl,
   (C8_dispatcher_never_raises
      ⟨Option.some "t", true, true, ⟨[], []⟩, true, ⟨[], [], 1⟩, true, ⟨[], []⟩⟩
      ⟨Option.some "Google Drive", Option.none, Option.some "d", Option.some "v"⟩).2.1
      StrategyKind.googleDrive "\x27file_path\x27" rfl rfl⟩

/-- C10: whatever the input task dict and backend state, the dict
returned by `upload_single_file` has a `"status"` key whose value is
exactly `"успех"` or `"ошибка"`, and a `"filename"` key. -/
theorem C10_status_and_filename_invariant (env : Env) (task : Task) :
    (dget (upload_single_file env task) "status" =
        Option.some (PyVal.str STATUS_SUCCESS) ∨
     dget (upload_single_file env task) "status" =
        Option.some (PyVal.str STATUS_ERROR)) ∧
    (dget (upload_single_file env task) "filename").isSome = true := by
  cases hl : lookup_strategy task.cloud_storage with
  | none =>
      simp only [upload_single_file, hl]
      exact ⟨Or.inr rfl, rfl⟩
  | some kind =>
      cases ht : upload_try env kind task with
      | error e =>
          simp only [upload_single_file, hl, ht]
          exact ⟨Or.inr rfl, rfl⟩
      | ok r =>
          simp only [upload_single_file, hl, ht]
          obtain ⟨fp, hfp⟩ : ∃ fp, task.file_path = Option.some fp := by
            cases hfp : task.file_path with
            | none => rw [upload_try, hfp] at ht; cases ht
            | some fp => exact ⟨fp, rfl⟩
          obtain ⟨folder, hfolder⟩ : ∃ folder,
              task.cloud_folder_path = Option.some folder := by
            cases hfo : task.cloud_folder_path with
            | none =>
                simp [upload_try, pySub, hfp, hfo, Bind.bind, Except.bind] at ht
            | some folder => exact ⟨folder, rfl⟩
          obtain ⟨fn, hfn⟩ : ∃ fn, task.filename = Option.some fn := by
            cases hfn : task.filename with
            | none =>
                simp [upload_try, pySub, hfp, hfolder, hfn, Bind.bind, Except.bind] at ht
            | some fn => exact ⟨fn, rfl⟩
          cases hs : strategy_upload env kind fp folder fn with
          | error e =>
              simp [upload_try, pySub, hfp, hfolder, hfn, hs, Bind.bind, Except.bind,
                Functor.map, Except.map] at ht
          | ok sr =>
              have hr : r = dset sr "filename" (PyVal.str fn) := by
                simp [upload_try, pySub, hfp, hfolder, hfn, hs, Bind.bind, Except.bind,
                  Functor.map, Except.map, Pure.pure, Except.pure] at ht
                exact ht.symm
              subst hr
              refine ⟨Or.inl ?_, ?_⟩
              · rw [dget_dset_ne sr "filename" "status" _ (by decide)]
                exact strategy_upload_ok_status env kind fp folder fn sr hs
              · rw [dget_dset_same]
                rfl

/-- C1: the download step of `src/downloader.py` raises for expected
failure modes instead of returning a result object: at the concrete
failing input where yt-dlp reports exit code 1 (an unavailable video or
network error), `download_video` raises `DownloadError` — an exception
that propagates to its caller — rather than returning a
`status: error` result. -/
theorem C1_download_step_raises :
    download_video (FetchOutcome.ret 1) Option.none Option.none
      "http://example.com/v" "slug1" "/tmp" =
      Except.error "Не удалось скачать видео: http://example.com/v" := rfl

end VDU
